import Mathlib

/-!
Verification of the meme-search trend/shorts pipeline (`src/meme_search.py`).

The development shallowly embeds the pure logic of the program:
duration parsing (`parse_iso8601_duration`), the short-form filter and
view-count ranking inside `get_youtube_shorts`, the rising-query
truncation and the per-country orchestration loop in `main`, the
spreadsheet export sheet layout, the bulk-download URL normalization and
the skipping of rows without a string `url` cell.
-/

namespace MemeSearch

/-! ### Duration parser

Embedding of `parse_iso8601_duration`: Python `re.match` with pattern
`PT(?:(\d+)H)?(?:(\d+)M)?(?:(\d+)S)?` anchored at the start of the
string.  Each optional group consumes a maximal digit run only when the
character immediately following the run is the unit letter; otherwise the
group matches the empty string and the position is unchanged (the regex
backtracks all the way out of the group, since `\d+` can only shrink onto
further digits).  A string not starting with `PT` yields no match; the
code then takes all three groups to be absent and returns 0. -/

/-- Numeric value of a decimal digit string, as Python `int` computes it. -/
def digitsToNat (ds : List Char) : Nat :=
  ds.foldl (fun n c => n * 10 + (c.toNat - '0'.toNat)) 0

/-- Split off the maximal leading run of decimal digits (regex `\d+`, greedy). -/
def spanDigits : List Char → List Char × List Char
  | [] => ([], [])
  | c :: cs =>
    if c.isDigit then
      let p := spanDigits cs
      (c :: p.1, p.2)
    else
      ([], c :: cs)

/-- One optional regex group `(?:(\d+)u)?`: consume a nonempty digit run
followed by the unit letter `u`, returning its value and the rest;
otherwise match the empty string, leaving the input unchanged and
contributing 0. -/
def parseUnit (u : Char) (cs : List Char) : Nat × List Char :=
  match spanDigits cs with
  | (ds, c :: rest) => if ds ≠ [] ∧ c = u then (digitsToNat ds, rest) else (0, cs)
  | (_, []) => (0, cs)

/-- Body of the regex after the literal `PT`: the three optional unit
groups, combined as `hours*3600 + minutes*60 + seconds`. -/
def durationCore (cs : List Char) : Nat :=
  let h := parseUnit 'H' cs
  let m := parseUnit 'M' h.2
  let s := parseUnit 'S' m.2
  h.1 * 3600 + m.1 * 60 + s.1

/-- `parse_iso8601_duration` on the character list of the input string. -/
def parseDurationChars (cs : List Char) : Nat :=
  match cs with
  | c1 :: c2 :: rest => if c1 = 'P' ∧ c2 = 'T' then durationCore rest else 0
  | _ => 0

/-- `parse_iso8601_duration(duration_str)` from `src/meme_search.py`. -/
def parse_iso8601_duration (s : String) : Nat :=
  parseDurationChars s.data

/-- Head of a character list is a digit (used to delimit digit runs). -/
def headIsDigit : List Char → Bool
  | [] => false
  | c :: _ => c.isDigit

theorem spanDigits_eq (ds rest : List Char) (hds : ∀ c ∈ ds, c.isDigit)
    (hrest : headIsDigit rest = false) : spanDigits (ds ++ rest) = (ds, rest) := by
  induction ds with
  | nil =>
    cases rest with
    | nil => rfl
    | cons c cs =>
      have hc : c.isDigit = false := by simpa [headIsDigit] using hrest
      simp [spanDigits, hc]
  | cons d ds ih =>
    have hd : d.isDigit := hds d (by simp)
    have ih' := ih (fun c hc => hds c (by simp [hc]))
    simp [spanDigits, hd, ih']

theorem parseUnit_hit (u : Char) (ds rest : List Char) (hne : ds ≠ [])
    (hds : ∀ c ∈ ds, c.isDigit) (hu : u.isDigit = false) :
    parseUnit u (ds ++ u :: rest) = (digitsToNat ds, rest) := by
  have h := spanDigits_eq ds (u :: rest) hds (by simp [headIsDigit, hu])
  simp [parseUnit, h, hne]

theorem parseUnit_ne (u u' : Char) (ds rest : List Char)
    (hds : ∀ c ∈ ds, c.isDigit) (hu' : u'.isDigit = false) (hne : u' ≠ u) :
    parseUnit u (ds ++ u' :: rest) = (0, ds ++ u' :: rest) := by
  have h := spanDigits_eq ds (u' :: rest) hds (by simp [headIsDigit, hu'])
  simp [parseUnit, h, hne]

theorem parseUnit_nil (u : Char) : parseUnit u [] = (0, []) := rfl

/-- An optional unit segment of the input: `none` when the unit is absent,
`some ds` for the digit string `ds` followed by the unit letter. -/
def unitSeg : Option (List Char) → Char → List Char
  | none, _ => []
  | some ds, u => ds ++ [u]

/-- Seconds contributed by an optional unit segment (absent units contribute 0). -/
def segVal : Option (List Char) → Nat
  | none => 0
  | some ds => digitsToNat ds

/-- Well-formedness of an optional unit segment: if present, a nonempty
string of decimal digits. -/
def goodSeg : Option (List Char) → Bool
  | none => true
  | some ds => !ds.isEmpty && ds.all (fun c => c.isDigit)

theorem goodSeg_some {ds : List Char} (h : goodSeg (some ds) = true) :
    ds ≠ [] ∧ ∀ c ∈ ds, c.isDigit := by
  cases ds with
  | nil => simp [goodSeg] at h
  | cons d ds' =>
    simp only [goodSeg, List.all_eq_true, Bool.and_eq_true] at h
    exact ⟨by simp, h.2⟩

theorem parseUnit_secondSeg (os : Option (List Char)) (hs : goodSeg os = true) :
    parseUnit 'S' (unitSeg os 'S') = (segVal os, []) := by
  cases os with
  | none => simpa [unitSeg, segVal] using parseUnit_nil 'S'
  | some ds =>
    obtain ⟨h1, h2⟩ := goodSeg_some hs
    simpa [unitSeg, segVal] using parseUnit_hit 'S' ds [] h1 h2 (by decide)

theorem parseUnit_minuteSeg (om os : Option (List Char))
    (hm : goodSeg om = true) (hs : goodSeg os = true) :
    parseUnit 'M' (unitSeg om 'M' ++ unitSeg os 'S') = (segVal om, unitSeg os 'S') := by
  cases om with
  | some ds =>
    obtain ⟨h1, h2⟩ := goodSeg_some hm
    simpa [unitSeg, segVal, List.append_assoc] using
      parseUnit_hit 'M' ds (unitSeg os 'S') h1 h2 (by decide)
  | none =>
    cases os with
    | none => simpa [unitSeg, segVal] using parseUnit_nil 'M'
    | some ds2 =>
      obtain ⟨h1, h2⟩ := goodSeg_some hs
      simpa [unitSeg, segVal] using parseUnit_ne 'M' 'S' ds2 [] h2 (by decide) (by decide)

theorem parseUnit_hourSeg (oh om os : Option (List Char))
    (hh : goodSeg oh = true) (hm : goodSeg om = true) (hs : goodSeg os = true) :
    parseUnit 'H' (unitSeg oh 'H' ++ (unitSeg om 'M' ++ unitSeg os 'S'))
      = (segVal oh, unitSeg om 'M' ++ unitSeg os 'S') := by
  cases oh with
  | some ds =>
    obtain ⟨h1, h2⟩ := goodSeg_some hh
    simpa [unitSeg, segVal, List.append_assoc] using
      parseUnit_hit 'H' ds (unitSeg om 'M' ++ unitSeg os 'S') h1 h2 (by decide)
  | none =>
    simp only [unitSeg, List.nil_append, segVal]
    cases om with
    | some dm =>
      obtain ⟨h1, h2⟩ := goodSeg_some hm
      simpa [unitSeg, List.append_assoc] using
        parseUnit_ne 'H' 'M' dm (unitSeg os 'S') h2 (by decide) (by decide)
    | none =>
      cases os with
      | none => simpa [unitSeg] using parseUnit_nil 'H'
      | some ds2 =>
        obtain ⟨h1, h2⟩ := goodSeg_some hs
        simpa [unitSeg] using parseUnit_ne 'H' 'S' ds2 [] h2 (by decide) (by decide)

theorem durationCore_eq (oh om os : Option (List Char))
    (hh : goodSeg oh = true) (hm : goodSeg om = true) (hs : goodSeg os = true) :
    durationCore (unitSeg oh 'H' ++ unitSeg om 'M' ++ unitSeg os 'S')
      = segVal oh * 3600 + segVal om * 60 + segVal os := by
  have hH := parseUnit_hourSeg oh om os hh hm hs
  have hM := parseUnit_minuteSeg om os hm hs
  have hS := parseUnit_secondSeg os hs
  simp only [durationCore, List.append_assoc, hH, hM, hS]

/-- C3: the duration parser maps `PT[nH][nM][nS]` to
`hours*3600 + minutes*60 + seconds`, absent units contributing zero, and
any string that does not match the pattern (does not start with `PT`)
to 0; the result is a natural number, hence non-negative, for every
input. -/
theorem parse_iso8601_duration_correct (oh om os : Option (List Char))
    (hh : goodSeg oh = true) (hm : goodSeg om = true) (hs : goodSeg os = true)
    (cs : List Char) (hcs : cs.take 2 ≠ ['P', 'T']) :
    parse_iso8601_duration
        (String.mk ('P' :: 'T' :: (unitSeg oh 'H' ++ unitSeg om 'M' ++ unitSeg os 'S')))
        = segVal oh * 3600 + segVal om * 60 + segVal os
      ∧ parse_iso8601_duration (String.mk cs) = 0 := by
  constructor
  · show parseDurationChars _ = _
    have h := durationCore_eq oh om os hh hm hs
    simp only [List.append_assoc] at h
    simp [parseDurationChars, h]
  · show parseDurationChars cs = 0
    cases cs with
    | nil => rfl
    | cons c1 cs1 =>
      cases cs1 with
      | nil => rfl
      | cons c2 rest =>
        have hpt : ¬ (c1 = 'P' ∧ c2 = 'T') := by
          rintro ⟨e1, e2⟩
          exact hcs (by simp [e1, e2])
        simp [parseDurationChars, hpt]

/-- Witness for C3 at `PT1H2M3S` (value 3723) and the non-matching input `PX`. -/
theorem parse_iso8601_duration_correct_witness :
    goodSeg (some ['1']) = true ∧ goodSeg (some ['2']) = true ∧
    goodSeg (some ['3']) = true ∧ ['P', 'X'].take 2 ≠ ['P', 'T'] ∧
    (parse_iso8601_duration
        (String.mk ('P' :: 'T' ::
          (unitSeg (some ['1']) 'H' ++ unitSeg (some ['2']) 'M' ++ unitSeg (some ['3']) 'S')))
        = segVal (some ['1']) * 3600 + segVal (some ['2']) * 60 + segVal (some ['3'])
      ∧ parse_iso8601_duration (String.mk ['P', 'X']) = 0) :=
  ⟨by decide, by decide, by decide, by decide,
    parse_iso8601_duration_correct (some ['1']) (some ['2']) (some ['3'])
      (by decide) (by decide) (by decide) ['P', 'X'] (by decide)⟩

/-! ### Video discovery and ranking

Embedding of `get_youtube_shorts`: the detail response items, the
construction of each `video_info` dict (with `statistics.get('viewCount', 0)`
and `statistics.get('likeCount', 0)` defaulting missing fields to 0), the
hard `duration <= 60` filter, and
`sorted(videos, key=lambda x: x['view_count'], reverse=True)[:max_results]`
with the default `max_results=5` used by the orchestrator.  Python's
`sorted` is a stable sort; with `reverse=True` it orders by view count
descending, ties kept in original order, which is exactly insertion sort
with the total preorder `byViewsDesc`. -/

/-- Statistics object of a detail-response item; either count key may be
absent from the JSON. -/
structure Stats where
  viewCount : Option Nat
  likeCount : Option Nat
deriving DecidableEq

/-- One item of the `videos().list` detail response: `id`, the used
`snippet` fields, `statistics`, and `contentDetails.duration`. -/
structure DetailItem where
  id : String
  title : String
  publishedAt : String
  channelTitle : String
  statistics : Stats
  duration : String
deriving DecidableEq

/-- The `video_info` dict built for each candidate that passes the filter. -/
structure VideoInfo where
  title : String
  video_id : String
  view_count : Nat
  like_count : Nat
  published_at : String
  channel_title : String
  url : String
deriving DecidableEq

/-- Canonical watch URL `https://www.youtube.com/watch?v={id}`. -/
def watch_url (vid : String) : String :=
  "https://www.youtube.com/watch?v=" ++ vid

/-- Construction of the `video_info` dict from a detail item. -/
def mk_video_info (v : DetailItem) : VideoInfo :=
  { title := v.title
    video_id := v.id
    view_count := v.statistics.viewCount.getD 0
    like_count := v.statistics.likeCount.getD 0
    published_at := v.publishedAt
    channel_title := v.channelTitle
    url := watch_url v.id }

/-- Sorting relation of `sorted(..., key=lambda x: x['view_count'], reverse=True)`:
`a` may come before `b` when `b`'s view count is at most `a`'s. -/
def byViewsDesc (a b : VideoInfo) : Prop :=
  b.view_count ≤ a.view_count

instance : DecidableRel byViewsDesc :=
  fun a b => Nat.decLe b.view_count a.view_count

instance : IsTotal VideoInfo byViewsDesc :=
  ⟨fun a b => Nat.le_total b.view_count a.view_count⟩

instance : IsTrans VideoInfo byViewsDesc :=
  ⟨fun _ _ _ hab hbc => Nat.le_trans hbc hab⟩

/-- The stable descending sort used by `get_youtube_shorts`. -/
def sortDesc (cs : List VideoInfo) : List VideoInfo :=
  List.insertionSort byViewsDesc cs

/-- Ranking step: sort by view count descending, keep the first 5
(`max_results` at its default value, the one every call site uses). -/
def rankTop5 (cs : List VideoInfo) : List VideoInfo :=
  (sortDesc cs).take 5

/-- The `videos` list built by the loop over detail items: keep items whose
parsed duration is at most 60 seconds and build their `video_info` dicts,
in response order. -/
def candidatesOf (items : List DetailItem) : List VideoInfo :=
  (items.filter (fun v => parse_iso8601_duration v.duration ≤ 60)).map mk_video_info

/-- Ranked output of the video discovery stage on a detail response. -/
def rankedOutput (items : List DetailItem) : List VideoInfo :=
  rankTop5 (candidatesOf items)

/-- One item of the search response; only `id.videoId` is consumed. -/
structure SearchItem where
  videoId : String
deriving DecidableEq

/-- The `search().list` response: its `items` array. -/
structure SearchResponse where
  items : List SearchItem
deriving DecidableEq

/-- `get_youtube_shorts`: the whole request sequence runs inside
`try/except Exception`; a failing step is modelled by an `Except.error`
from the search call or from the detail call on the collected video ids,
and makes the function return `[]`. -/
def get_youtube_shorts (searchResp : Except String SearchResponse)
    (videosList : List String → Except String (List DetailItem)) : List VideoInfo :=
  match searchResp with
  | .error _ => []
  | .ok sr =>
    match videosList (sr.items.map (fun i => i.videoId)) with
    | .error _ => []
    | .ok items => rankedOutput items

theorem filter_orderedInsert_of_ne (n : Nat) (x : VideoInfo) (ys : List VideoInfo)
    (hx : x.view_count ≠ n) :
    (List.orderedInsert byViewsDesc x ys).filter (fun c => c.view_count == n)
      = ys.filter (fun c => c.view_count == n) := by
  induction ys with
  | nil => simp [List.orderedInsert, hx]
  | cons y ys ih =>
    by_cases h : byViewsDesc x y
    · simp [List.orderedInsert, h, hx]
    · simp only [List.orderedInsert, if_neg h, List.filter_cons]
      rw [ih]

theorem filter_orderedInsert_of_eq (n : Nat) (x : VideoInfo) (ys : List VideoInfo)
    (hys : List.Sorted byViewsDesc ys) (hx : x.view_count = n) :
    (List.orderedInsert byViewsDesc x ys).filter (fun c => c.view_count == n)
      = x :: ys.filter (fun c => c.view_count == n) := by
  induction ys with
  | nil => simp [List.orderedInsert, hx]
  | cons y ys ih =>
    by_cases h : byViewsDesc x y
    · simp [List.orderedInsert, h, hx]
    · have hy : y.view_count ≠ n := by
        intro he
        exact h (show byViewsDesc x y from le_of_eq (by rw [he, hx]))
      simp [List.orderedInsert, h, hy, ih hys.of_cons]

theorem filter_sortDesc (n : Nat) (cs : List VideoInfo) :
    (sortDesc cs).filter (fun c => c.view_count == n)
      = cs.filter (fun c => c.view_count == n) := by
  induction cs with
  | nil => rfl
  | cons x cs ih =>
    have hstep : sortDesc (x :: cs) = List.orderedInsert byViewsDesc x (sortDesc cs) := rfl
    have hsort : List.Sorted byViewsDesc (sortDesc cs) :=
      List.sorted_insertionSort byViewsDesc cs
    by_cases hx : x.view_count = n
    · rw [hstep, filter_orderedInsert_of_eq n x (sortDesc cs) hsort hx, ih]
      simp [List.filter_cons, hx]
    · rw [hstep, filter_orderedInsert_of_ne n x (sortDesc cs) hx, ih]
      simp [List.filter_cons, hx]

/-- C2: the ranked output is sorted by view count in descending order, has
length at most 5, and candidates with equal view counts keep the relative
order they had in the input list (stable sort, ties broken by original
API order). -/
theorem ranked_sorted_truncated_stable (cs : List VideoInfo) (n : Nat) :
    List.Sorted byViewsDesc (rankTop5 cs) ∧
    (rankTop5 cs).length ≤ 5 ∧
    List.Sublist ((rankTop5 cs).filter (fun c => c.view_count == n))
      (cs.filter (fun c => c.view_count == n)) := by
  refine ⟨?_, ?_, ?_⟩
  · exact List.Pairwise.sublist (List.take_sublist 5 _)
      (List.sorted_insertionSort byViewsDesc cs)
  · exact List.length_take_le 5 _
  · have h1 : List.Sublist ((rankTop5 cs).filter (fun c => c.view_count == n))
        ((sortDesc cs).filter (fun c => c.view_count == n)) :=
      List.Sublist.filter _ (List.take_sublist 5 _)
    rwa [filter_sortDesc] at h1

/-- C1: every candidate in the ranked output comes from a detail item whose
parsed duration is at most 60 seconds, and (when detail items have distinct
ids, as in an API detail response) an item with parsed duration over 60
never contributes a candidate to the ranked output. -/
theorem ranked_duration_le_60 (items : List DetailItem)
    (hids : ∀ v ∈ items, ∀ w ∈ items, v.id = w.id → v = w) :
    (∀ c ∈ rankedOutput items,
        ∃ v ∈ items, parse_iso8601_duration v.duration ≤ 60 ∧ c = mk_video_info v) ∧
    (∀ v ∈ items, 60 < parse_iso8601_duration v.duration →
        mk_video_info v ∉ rankedOutput items) := by
  have hA : ∀ c ∈ rankedOutput items,
      ∃ v ∈ items, parse_iso8601_duration v.duration ≤ 60 ∧ c = mk_video_info v := by
    intro c hc
    have h1 : c ∈ sortDesc (candidatesOf items) := List.take_subset 5 _ hc
    have h2 : c ∈ candidatesOf items :=
      (List.perm_insertionSort byViewsDesc _).mem_iff.mp h1
    simp only [candidatesOf, List.mem_map, List.mem_filter] at h2
    obtain ⟨v, ⟨hv, hdur⟩, hmk⟩ := h2
    exact ⟨v, hv, by simpa using hdur, hmk.symm⟩
  refine ⟨hA, ?_⟩
  intro v hv hdur hmem
  obtain ⟨w, hw, hwdur, heq⟩ := hA (mk_video_info v) hmem
  have hid : v.id = w.id := congrArg VideoInfo.video_id heq
  have hvw : v = w := hids v hv w hw hid
  rw [hvw] at hdur
  exact absurd hwdur (not_le.mpr hdur)

/-- C9: a detail item whose statistics lack `viewCount` (respectively
`likeCount`) yields a candidate with that count equal to 0, and when its
duration passes the 60-second filter the candidate still enters the
filtered list and the ranking input like any other candidate. -/
theorem missing_counts_default_zero (items : List DetailItem) (v : DetailItem)
    (hv : v ∈ items) (hdur : parse_iso8601_duration v.duration ≤ 60) :
    (v.statistics.viewCount = none → (mk_video_info v).view_count = 0) ∧
    (v.statistics.likeCount = none → (mk_video_info v).like_count = 0) ∧
    mk_video_info v ∈ candidatesOf items ∧
    mk_video_info v ∈ sortDesc (candidatesOf items) := by
  have hmem : mk_video_info v ∈ candidatesOf items := by
    simp only [candidatesOf, List.mem_map]
    exact ⟨v, List.mem_filter.mpr ⟨hv, by simpa using hdur⟩, rfl⟩
  refine ⟨?_, ?_, hmem, ?_⟩
  · intro h; simp [mk_video_info, h]
  · intro h; simp [mk_video_info, h]
  · exact (List.perm_insertionSort byViewsDesc _).mem_iff.mpr hmem

/-- C5: an error raised by the search request or by the detail request makes
`get_youtube_shorts` return the empty list; no other error indication is
produced (the function is total and its only outputs are candidate lists). -/
theorem shorts_error_empty (e : String) (s : SearchResponse)
    (videosList : List String → Except String (List DetailItem))
    (hdet : videosList (s.items.map (fun i => i.videoId)) = .error e) :
    get_youtube_shorts (.error e) videosList = [] ∧
    get_youtube_shorts (.ok s) videosList = [] := by
  constructor
  · rfl
  · simp [get_youtube_shorts, hdet]

/-- Witness for C5: a concrete failing request sequence yields `[]` in both
failure positions. -/
theorem shorts_error_empty_witness :
    get_youtube_shorts (Except.error "quotaExceeded") (fun _ => Except.error "quotaExceeded") = [] ∧
    get_youtube_shorts (Except.ok ⟨[]⟩) (fun _ => Except.error "quotaExceeded") = [] :=
  shorts_error_empty "quotaExceeded" ⟨[]⟩ (fun _ => Except.error "quotaExceeded") rfl

/-- Concrete detail item with a 30-second duration, used to instantiate C1. -/
def shortItem : DetailItem :=
  { id := "a1", title := "cat meme", publishedAt := "2024-01-01T00:00:00Z",
    channelTitle := "ch1", statistics := { viewCount := some 10, likeCount := some 1 },
    duration := "PT30S" }

/-- Concrete detail item with a 2-minute duration, used to instantiate C1. -/
def longItem : DetailItem :=
  { id := "b2", title := "long video", publishedAt := "2024-01-02T00:00:00Z",
    channelTitle := "ch2", statistics := { viewCount := some 99, likeCount := none },
    duration := "PT2M" }

/-- Witness for C1: on a concrete detail response with distinct ids, the
over-60-second item is excluded and every ranked candidate comes from an
item at most 60 seconds long. -/
theorem ranked_duration_le_60_witness :
    (∀ v ∈ [shortItem, longItem], ∀ w ∈ [shortItem, longItem], v.id = w.id → v = w) ∧
    ((∀ c ∈ rankedOutput [shortItem, longItem],
        ∃ v ∈ [shortItem, longItem],
          parse_iso8601_duration v.duration ≤ 60 ∧ c = mk_video_info v) ∧
      (∀ v ∈ [shortItem, longItem], 60 < parse_iso8601_duration v.duration →
        mk_video_info v ∉ rankedOutput [shortItem, longItem])) :=
  ⟨by decide, ranked_duration_le_60 [shortItem, longItem] (by decide)⟩

/-- Concrete detail item lacking both statistics counts, used to instantiate C9. -/
def noStatsItem : DetailItem :=
  { id := "c3", title := "no stats", publishedAt := "2024-01-03T00:00:00Z",
    channelTitle := "ch3", statistics := { viewCount := none, likeCount := none },
    duration := "PT45S" }

/-- Witness for C9: a concrete item without `viewCount`/`likeCount` gets
counts 0 and still enters the filtered list and the ranking input. -/
theorem missing_counts_default_zero_witness :
    noStatsItem ∈ [noStatsItem] ∧
    parse_iso8601_duration noStatsItem.duration ≤ 60 ∧
    ((noStatsItem.statistics.viewCount = none → (mk_video_info noStatsItem).view_count = 0) ∧
      (noStatsItem.statistics.likeCount = none → (mk_video_info noStatsItem).like_count = 0) ∧
      mk_video_info noStatsItem ∈ candidatesOf [noStatsItem] ∧
      mk_video_info noStatsItem ∈ sortDesc (candidatesOf [noStatsItem])) :=
  ⟨by decide, by decide,
    missing_counts_default_zero [noStatsItem] noStatsItem (by decide) (by decide)⟩

/-! ### Trend fetcher and orchestrator

Embedding of the per-country loop in `main`: the SerpAPI response payload
(`data`, with `data.get("related_queries", {})` and
`related_queries.get("rising")`), the truncation
`related_queries.get("rising", [])[:15] if related_queries.get("rising") else []`,
and the `try/except` that records `{"error": str(e)}` for a failing country
while leaving every other country's entries untouched. -/

/-- One `{query, value}` object of the `related_queries.rising` array; the
loop re-projects exactly these two keys into the stored result. -/
structure RisingPair where
  query : String
  value : String
deriving DecidableEq

/-- The parsed `related_queries` object of the provider payload. -/
structure RelatedQueries where
  rising : Option (List RisingPair)
deriving DecidableEq

/-- The provider payload `data`; `related_queries` may be absent. -/
structure TrendsData where
  related_queries : Option RelatedQueries
deriving DecidableEq

/-- The `rising_queries` list:
`related_queries.get("rising", [])[:15] if related_queries.get("rising") else []`. -/
def risingQueriesOf (d : TrendsData) : List RisingPair :=
  let rq := d.related_queries.getD { rising := none }
  match rq.rising with
  | some l => if l.isEmpty then [] else l.take 15
  | none => []

/-- C4: the stored rising list never exceeds 15 entries, and is empty
whenever the provider reports no rising entries (`related_queries` absent,
`rising` absent, or `rising` empty). -/
theorem rising_queries_capped (d : TrendsData) :
    (risingQueriesOf d).length ≤ 15 ∧
    risingQueriesOf { related_queries := none } = [] ∧
    risingQueriesOf { related_queries := some { rising := none } } = [] ∧
    risingQueriesOf { related_queries := some { rising := some [] } } = [] := by
  refine ⟨?_, rfl, rfl, rfl⟩
  unfold risingQueriesOf
  cases h : (d.related_queries.getD { rising := none }).rising with
  | none => simp [h]
  | some l =>
    simp only [h]
    split
    · simp
    · exact List.length_take_le 15 l

/-- Per-country entry of the `results` dict: either the stored rising
queries or the `{"error": str(e)}` record. -/
inductive CountryEntry where
  | ok (rising : List RisingPair)
  | error (msg : String)
deriving DecidableEq

/-- The per-country loop of `main`, in iteration order: on success the
country's `results` entry stores the (truncated) rising queries and its
`youtube_results` entry stores, per rising query, the shorts returned for
it; on an exception the `results` entry records the error string and no
`youtube_results` entry is created.  `trendFetch` models the fallible
trend-request sequence and `shorts` the (total, error-swallowing)
`get_youtube_shorts` call. -/
def processCountries (trendFetch : String → Except String TrendsData)
    (shorts : String → List VideoInfo) :
    List String →
      List (String × CountryEntry) × List (String × List (String × List VideoInfo))
  | [] => ([], [])
  | c :: cs =>
    let rest := processCountries trendFetch shorts cs
    match trendFetch c with
    | .error e => ((c, .error e) :: rest.1, rest.2)
    | .ok d =>
      let rising := risingQueriesOf d
      ((c, .ok rising) :: rest.1,
        (c, rising.map (fun p => (p.query, shorts p.query))) :: rest.2)

theorem processCountries_results_error (trendFetch shorts) (e : String)
    (a : String) (countries : List String) (ha : a ∈ countries)
    (hfa : trendFetch a = .error e) :
    ((processCountries trendFetch shorts countries).1).lookup a
      = some (CountryEntry.error e) := by
  induction countries with
  | nil => cases ha
  | cons c cs ih =>
    by_cases hac : a = c
    · subst hac
      cases hc : trendFetch a with
      | error e' =>
        rw [hfa] at hc
        cases hc
        simp [processCountries, hfa, List.lookup]
      | ok d => rw [hfa] at hc; cases hc
    · have ha' : a ∈ cs := by
        cases ha with
        | head => exact absurd rfl hac
        | tail _ h => exact h
      have hkey : (a == c) = false := by
        simpa using hac
      cases hc : trendFetch c with
      | error e' => simp [processCountries, hc, List.lookup, hkey, ih ha']
      | ok d => simp [processCountries, hc, List.lookup, hkey, ih ha']

theorem processCountries_results_ok (trendFetch shorts)
    (b : String) (db : TrendsData) (countries : List String) (hb : b ∈ countries)
    (hfb : trendFetch b = .ok db) :
    ((processCountries trendFetch shorts countries).1).lookup b
      = some (CountryEntry.ok (risingQueriesOf db)) := by
  induction countries with
  | nil => cases hb
  | cons c cs ih =>
    by_cases hbc : b = c
    · subst hbc
      simp [processCountries, hfb, List.lookup]
    · have hb' : b ∈ cs := by
        cases hb with
        | head => exact absurd rfl hbc
        | tail _ h => exact h
      have hkey : (b == c) = false := by
        simpa using hbc
      cases hc : trendFetch c with
      | error e' => simp [processCountries, hc, List.lookup, hkey, ih hb']
      | ok d => simp [processCountries, hc, List.lookup, hkey, ih hb']

theorem processCountries_youtube_ok (trendFetch shorts)
    (b : String) (db : TrendsData) (countries : List String) (hb : b ∈ countries)
    (hfb : trendFetch b = .ok db) :
    ((processCountries trendFetch shorts countries).2).lookup b
      = some ((risingQueriesOf db).map (fun p => (p.query, shorts p.query))) := by
  induction countries with
  | nil => cases hb
  | cons c cs ih =>
    by_cases hbc : b = c
    · subst hbc
      simp [processCountries, hfb, List.lookup]
    · have hb' : b ∈ cs := by
        cases hb with
        | head => exact absurd rfl hbc
        | tail _ h => exact h
      have hkey : (b == c) = false := by
        simpa using hbc
      cases hc : trendFetch c with
      | error e' => simp [processCountries, hc, ih hb']
      | ok d => simp [processCountries, hc, List.lookup, hkey, ih hb']

/-- C6: when country `a`'s trend fetch raises, `a`'s entry in the results
records the error string, while any other country `b` whose fetch succeeds
still has its rising queries and its per-query shorts present. -/
theorem country_failure_isolated (trendFetch : String → Except String TrendsData)
    (shorts : String → List VideoInfo) (countries : List String)
    (a b : String) (e : String) (db : TrendsData)
    (ha : a ∈ countries) (hb : b ∈ countries)
    (hfa : trendFetch a = .error e) (hfb : trendFetch b = .ok db) :
    ((processCountries trendFetch shorts countries).1).lookup a
        = some (CountryEntry.error e) ∧
    ((processCountries trendFetch shorts countries).1).lookup b
        = some (CountryEntry.ok (risingQueriesOf db)) ∧
    ((processCountries trendFetch shorts countries).2).lookup b
        = some ((risingQueriesOf db).map (fun p => (p.query, shorts p.query))) :=
  ⟨processCountries_results_error trendFetch shorts e a countries ha hfa,
    processCountries_results_ok trendFetch shorts b db countries hb hfb,
    processCountries_youtube_ok trendFetch shorts b db countries hb hfb⟩

/-- Concrete trend fetcher failing for `"KR"` and succeeding for `"US"`,
used to instantiate C6. -/
def demoFetch : String → Except String TrendsData := fun c =>
  if c = "KR" then Except.error "HTTPError"
  else Except.ok { related_queries := some { rising := some [{ query := "cat meme", value := "+300%" }] } }

/-- Witness for C6 on a concrete two-country run. -/
theorem country_failure_isolated_witness :
    "KR" ∈ ["KR", "US"] ∧ "US" ∈ ["KR", "US"] ∧
    demoFetch "KR" = .error "HTTPError" ∧
    (((processCountries demoFetch (fun _ => []) ["KR", "US"]).1).lookup "KR"
        = some (CountryEntry.error "HTTPError") ∧
      ((processCountries demoFetch (fun _ => []) ["KR", "US"]).1).lookup "US"
        = some (CountryEntry.ok (risingQueriesOf
            { related_queries := some { rising := some [{ query := "cat meme", value := "+300%" }] } })) ∧
      ((processCountries demoFetch (fun _ => []) ["KR", "US"]).2).lookup "US"
        = some ((risingQueriesOf
            { related_queries := some { rising := some [{ query := "cat meme", value := "+300%" }] } }).map
              (fun p => (p.query, (fun _ => ([] : List VideoInfo)) p.query)))) :=
  ⟨by decide, by decide, rfl,
    country_failure_isolated demoFetch (fun _ => []) ["KR", "US"] "KR" "US" "HTTPError"
      { related_queries := some { rising := some [{ query := "cat meme", value := "+300%" }] } }
      (by decide) (by decide) rfl rfl⟩

/-! ### Spreadsheet export

Embedding of the Excel export block of `main`: the rows of the two data
frames and the order and names of the sheets written with `to_excel`
(`sheet_name='YouTube Shorts'` first, `sheet_name='Meme Keyword'` second).
Styling, thumbnail embedding and hyperlinks are presentation-only and not
modelled. -/

/-- One row appended to `youtube_data` for a short. -/
structure YtRow where
  country : String
  search_query : String
  title : String
  channel : String
  views : Nat
  likes : Nat
  published_date : String
  url : String
  thumbnail_url : String
deriving DecidableEq

/-- One row appended to `trends_data` for a rising query. -/
structure TrendRow where
  country : String
  related_query : String
  value : String
deriving DecidableEq

/-- Thumbnail URL `https://i.ytimg.com/vi/{video_id}/hqdefault.jpg`. -/
def thumbnail_url_of (vid : String) : String :=
  "https://i.ytimg.com/vi/" ++ vid ++ "/hqdefault.jpg"

/-- Reformatting of `published_at` by
`datetime.strptime(.., "%Y-%m-%dT%H:%M:%SZ").strftime("%Y-%m-%d")`: on the
well-formed timestamps of that format this keeps the date part before `T`. -/
def published_date_of (s : String) : String :=
  String.mk (s.data.takeWhile (fun c => c ≠ 'T'))

/-- The `youtube_data` rows, flattening country → query → shorts in order. -/
def youtubeRows
    (yt : List (String × List (String × List VideoInfo))) : List YtRow :=
  yt.flatMap (fun cq =>
    cq.2.flatMap (fun qs =>
      qs.2.map (fun short =>
        { country := cq.1
          search_query := qs.1
          title := short.title
          channel := short.channel_title
          views := short.view_count
          likes := short.like_count
          published_date := published_date_of short.published_at
          url := short.url
          thumbnail_url := thumbnail_url_of short.video_id })))

/-- The `trends_data` rows: `data.get("rising_related_queries", [])` per
country, so an error entry contributes no rows. -/
def trendsRows (res : List (String × CountryEntry)) : List TrendRow :=
  res.flatMap (fun ce =>
    match ce.2 with
    | .ok rising => rising.map (fun p =>
        { country := ce.1, related_query := p.query, value := p.value })
    | .error _ => [])

/-- Sheet contents of the exported workbook. -/
inductive SheetRows where
  | yt (rows : List YtRow)
  | trends (rows : List TrendRow)
deriving DecidableEq

/-- The workbook written by the export block: named sheets in write order. -/
def exportWorkbook (res : List (String × CountryEntry))
    (yt : List (String × List (String × List VideoInfo))) :
    List (String × SheetRows) :=
  [("YouTube Shorts", SheetRows.yt (youtubeRows yt)),
    ("Meme Keyword", SheetRows.trends (trendsRows res))]

/-- C8 (counterexample): the exported workbook's sheets are not named
`"Video results"` and `"Search Keyword"`. -/
theorem export_sheet_names_ne_spec :
    ¬ ((exportWorkbook [] []).map Prod.fst = ["Video results", "Search Keyword"]) := by
  decide

/-- C8 (amended): the export produces a workbook with exactly two sheets,
named `"YouTube Shorts"` and `"Meme Keyword"`, in that order. -/
theorem export_sheet_names (res : List (String × CountryEntry))
    (yt : List (String × List (String × List VideoInfo))) :
    (exportWorkbook res yt).map Prod.fst = ["YouTube Shorts", "Meme Keyword"] ∧
    (exportWorkbook res yt).length = 2 := by
  constructor <;> rfl

/-! ### Bulk-download URL handling

Embedding of the download section of `main`: the uploaded sheet's `url`
cells, the skip of rows whose cell is NaN or not a string, the
normalization of `youtube.com/shorts/` URLs via `url.split("/")[-1]`, and
the sequential download loop collecting `failed_list` and
`downloaded_count` over `video_links`. -/

/-- Python `s.split("/")`: split on every slash, keeping empty pieces. -/
def splitSlash : List Char → List (List Char)
  | [] => [[]]
  | c :: cs =>
    match splitSlash cs with
    | [] => [[]]
    | g :: gs => if c = '/' then [] :: g :: gs else (c :: g) :: gs

/-- Python `url.split("/")[-1]`. -/
def lastSlashPiece (u : List Char) : List Char :=
  (splitSlash u).getLastD []

/-- Does `pat` begin `s`? -/
def listStarts : List Char → List Char → Bool
  | [], _ => true
  | _ :: _, [] => false
  | p :: ps, c :: cs => p == c && listStarts ps cs

/-- Python `pat in s`: contiguous substring test. -/
def hasSub (pat : List Char) : List Char → Bool
  | [] => listStarts pat []
  | c :: cs => listStarts pat (c :: cs) || hasSub pat cs

/-- URL normalization of the download loop: a URL containing
`youtube.com/shorts/` is rewritten to the canonical watch URL of its last
path segment; any other URL is passed through unchanged. -/
def normalize_url (u : String) : String :=
  if hasSub "youtube.com/shorts/".data u.data then
    watch_url (String.mk (lastSlashPiece u.data))
  else u

/-- C7: the short-form URL `https://youtube.com/shorts/XYZ` is normalized
to `https://www.youtube.com/watch?v=XYZ`, and a standard watch URL passes
through unchanged. -/
theorem normalize_url_spec :
    normalize_url "https://youtube.com/shorts/XYZ" = "https://www.youtube.com/watch?v=XYZ" ∧
    normalize_url "https://www.youtube.com/watch?v=XYZ"
      = "https://www.youtube.com/watch?v=XYZ" := by
  constructor <;> decide

/-- The `url` cell of an uploaded row as the skip test sees it: missing
(NaN), a string, or a non-string value. -/
inductive UrlCell where
  | na
  | text (s : String)
  | nonString
deriving DecidableEq

/-- One row of the uploaded spreadsheet; only the `url` column is consumed. -/
structure UrlRow where
  url : UrlCell
deriving DecidableEq

/-- The `video_links` list: rows whose `url` cell is NaN or not a string
are skipped by `continue`; the remaining URLs are normalized and appended
in row order. -/
def video_links (rows : List UrlRow) : List String :=
  rows.filterMap (fun r =>
    match r.url with
    | .text s => some (normalize_url s)
    | _ => none)

/-- The sequential download loop over `video_links`: per-link success
increments `downloaded_count`, per-link failure appends to `failed_list`. -/
def downloadRun (tryDownload : String → Except String Unit) (links : List String) :
    Nat × List (String × String) :=
  links.foldl (fun acc link =>
    match tryDownload link with
    | .ok _ => (acc.1 + 1, acc.2)
    | .error e => (acc.1, acc.2 ++ [(link, e)])) (0, [])

/-- C10: a row whose `url` cell is not a string contributes nothing: the
link list, its length (the reported total), and the whole download run
(count and failure list) are the same as if the row were absent. -/
theorem bad_url_rows_skipped (rows1 rows2 : List UrlRow) (r : UrlRow)
    (tryDownload : String → Except String Unit)
    (hr : ∀ s, r.url ≠ UrlCell.text s) :
    video_links (rows1 ++ r :: rows2) = video_links (rows1 ++ rows2) ∧
    (video_links (rows1 ++ r :: rows2)).length = (video_links (rows1 ++ rows2)).length ∧
    downloadRun tryDownload (video_links (rows1 ++ r :: rows2))
      = downloadRun tryDownload (video_links (rows1 ++ rows2)) := by
  have hnone : (match r.url with
      | UrlCell.text s => some (normalize_url s)
      | _ => none) = (none : Option String) := by
    cases h : r.url with
    | na => rfl
    | text s => exact absurd h (hr s)
    | nonString => rfl
  have hlinks : video_links (rows1 ++ r :: rows2) = video_links (rows1 ++ rows2) := by
    simp only [video_links, List.filterMap_append, List.filterMap_cons, hnone]
  exact ⟨hlinks, by rw [hlinks], by rw [hlinks]⟩

/-- Witness for C10: a concrete NaN row between two good rows changes
neither the links, nor the total, nor the download run. -/
theorem bad_url_rows_skipped_witness :
    (∀ t, UrlRow.url { url := UrlCell.na } ≠ UrlCell.text t) ∧
    (video_links [{ url := UrlCell.text "https://youtube.com/shorts/abc" },
        { url := UrlCell.na }, { url := UrlCell.text "https://www.youtube.com/watch?v=xyz" }]
      = video_links [{ url := UrlCell.text "https://youtube.com/shorts/abc" },
        { url := UrlCell.text "https://www.youtube.com/watch?v=xyz" }] ∧
      (video_links [{ url := UrlCell.text "https://youtube.com/shorts/abc" },
          { url := UrlCell.na }, { url := UrlCell.text "https://www.youtube.com/watch?v=xyz" }]).length
        = (video_links [{ url := UrlCell.text "https://youtube.com/shorts/abc" },
            { url := UrlCell.text "https://www.youtube.com/watch?v=xyz" }]).length ∧
      downloadRun (fun _ => Except.error "DownloadError")
          (video_links [{ url := UrlCell.text "https://youtube.com/shorts/abc" },
            { url := UrlCell.na }, { url := UrlCell.text "https://www.youtube.com/watch?v=xyz" }])
        = downloadRun (fun _ => Except.error "DownloadError")
            (video_links [{ url := UrlCell.text "https://youtube.com/shorts/abc" },
              { url := UrlCell.text "https://www.youtube.com/watch?v=xyz" }])) :=
  ⟨fun _ h => UrlCell.noConfusion h,
    bad_url_rows_skipped
      [{ url := UrlCell.text "https://youtube.com/shorts/abc" }]
      [{ url := UrlCell.text "https://www.youtube.com/watch?v=xyz" }]
      { url := UrlCell.na } (fun _ => Except.error "DownloadError")
      (fun _ h => UrlCell.noConfusion h)⟩

end MemeSearch
